import Mathlib

/-!
Shallow embedding of the ZLS plugin backend (`src/plugins/core/zls.rs`) of the
mise version manager.  Pure helpers of the Rust file become Lean functions;
the effectful install pipeline becomes explicit state passing over a `World`
record that fixes the outcome of every external call, together with an event
trace recording the side effects the pipeline performs, in order.
-/

namespace Zls

/-- Model of the JSON values the plugin inspects (`serde_json::Value` restricted
to the shapes the code touches: objects, strings, integers, booleans, null;
arrays never occur on the paths the plugin reads). -/
inductive Json where
  | null : Json
  | bool (b : Bool) : Json
  | num (n : Int) : Json
  | str (s : String) : Json
  | obj (fields : List (String × Json)) : Json

/-- Field lookup, `Value::get(key)`: `some` only on objects holding the key. -/
def Json.get (j : Json) (key : String) : Option Json :=
  match j with
  | .obj fields => fields.lookup key
  | _ => none

/-- Model of `Value::as_str`. -/
def Json.as_str (j : Json) : Option String :=
  match j with
  | .str s => some s
  | _ => none

mutual

/-- Model of the `Display` rendering of a JSON value (used by the code when it
interpolates the error envelope's `code` value into a message).  Escaping of
special characters inside strings is elided; the claims never exercise it. -/
def Json.render : Json → String
  | .null => "null"
  | .bool b => if b then "true" else "false"
  | .num n => toString n
  | .str s => "\"" ++ s ++ "\""
  | .obj fields => "\x7b" ++ Json.renderFields fields ++ "\x7d"

/-- Rendering of an object's field list, comma separated. -/
def Json.renderFields : List (String × Json) → String
  | [] => ""
  | [(k, v)] => "\"" ++ k ++ "\":" ++ Json.render v
  | (k, v) :: rest => "\"" ++ k ++ "\":" ++ Json.render v ++ "," ++ Json.renderFields rest

end

/-- Host platform identifiers.  The Rust code branches on compile-time `cfg!`
flags and on `SETTINGS.arch()`; following the spec's design note they are
re-expressed as explicit runtime values so all platforms can be reasoned
about. `crate_os` stands for the crate-level `OS` constant the fallback branch
of `os()` returns. -/
structure HostPlatform where
  target_os : String
  crate_os : String
  settings_arch : String
  is_unix : Bool
  is_windows : Bool
deriving DecidableEq, Repr

/-- The `os()` function of the plugin: special-cases macOS, Linux and FreeBSD,
otherwise falls back to the crate's `OS` constant. -/
def os_map (target_os crate_os : String) : String :=
  if target_os = "macos" then "macos"
  else if target_os = "linux" then "linux"
  else if target_os = "freebsd" then "freebsd"
  else crate_os

/-- The `arch()` function of the plugin: maps the settings architecture to the
identifier vocabulary of the ZLS release publisher. -/
def arch_map (a : String) : String :=
  if a = "x86_64" then "x86_64"
  else if a = "aarch64" then "aarch64"
  else if a = "arm" then "armv7a"
  else if a = "riscv64" then "riscv64"
  else a

/-- The `os()` value for a host platform. -/
def os (hp : HostPlatform) : String := os_map hp.target_os hp.crate_os

/-- The `arch()` value for a host platform. -/
def arch (hp : HostPlatform) : String := arch_map hp.settings_arch

/-- The `"{os}-{arch}"` platform key the plugin looks up in the selector
response. -/
def os_key (hp : HostPlatform) : String := os hp ++ "-" ++ arch hp

/-- Model of `Itertools::unique`: keeps the first occurrence of each element,
tracking the set of elements already seen. -/
def uniqueFirstAux (seen : List String) : List String → List String
  | [] => []
  | x :: xs =>
      if x ∈ seen then uniqueFirstAux seen xs
      else x :: uniqueFirstAux (x :: seen) xs

/-- Deduplication keeping first occurrences, as `.unique()` does. -/
def uniqueFirst (l : List String) : List String := uniqueFirstAux [] l

/-- The sort order of `sorted_by_cached_key(|s| (Versioning::new(s), s.to_string()))`:
lexicographic on the pair of the semantic-version key and the original string.
`semkey` abstracts `Versioning::new` from the external `versions` crate (its
codomain `Option<Versioning>` is any linearly ordered type here); the original
string breaks ties.  Lean's `String` order is codepoint-lexicographic, which
agrees with Rust's byte-lexicographic `String` order on valid UTF-8. -/
def tagKeyR {K : Type} [LinearOrder K] (semkey : String → K) (a b : String) : Prop :=
  semkey a < semkey b ∨ (semkey a = semkey b ∧ a ≤ b)

instance tagKeyR.decidableRel {K : Type} [LinearOrder K] (semkey : String → K) :
    DecidableRel (tagKeyR semkey) := fun a b => by
  unfold tagKeyR; infer_instance

instance tagKeyR.isTotal {K : Type} [LinearOrder K] (semkey : String → K) :
    IsTotal String (tagKeyR semkey) := by
  constructor
  intro a b
  rcases lt_trichotomy (semkey a) (semkey b) with h | h | h
  · exact Or.inl (Or.inl h)
  · rcases le_total a b with hab | hba
    · exact Or.inl (Or.inr ⟨h, hab⟩)
    · exact Or.inr (Or.inr ⟨h.symm, hba⟩)
  · exact Or.inr (Or.inl h)

instance tagKeyR.isTrans {K : Type} [LinearOrder K] (semkey : String → K) :
    IsTrans String (tagKeyR semkey) := by
  constructor
  intro a b c hab hbc
  rcases hab with h1 | ⟨e1, l1⟩
  · rcases hbc with h2 | ⟨e2, l2⟩
    · exact Or.inl (h1.trans h2)
    · exact Or.inl (e2 ▸ h1)
  · rcases hbc with h2 | ⟨e2, l2⟩
    · exact Or.inl (e1 ▸ h2)
    · exact Or.inr ⟨e1.trans e2, l1.trans l2⟩

/-- Model of `ZlsPlugin::list_remote_versions`: deduplicate the release tags
(keeping first occurrences), sort by `(Versioning::new(s), s)`, then append the
pseudo-version `"ref:zig"`.  `insertionSort` stands for Rust's stable sort:
because the key contains the full original string, the order is total and
antisymmetric on distinct strings, so every correct sort produces the same
list. -/
def list_remote_versions {K : Type} [LinearOrder K] (semkey : String → K)
    (tags : List String) : List String :=
  (List.insertionSort (tagKeyR semkey) (uniqueFirst tags)) ++ ["ref:zig"]

/-- Tool version request shapes.  `version`, `prefixed` and `ref` mirror the
`ToolRequest::Version`, `ToolRequest::Prefix` and `ToolRequest::Ref` variants
matched by the contract on `install_version_`.  Modelled from the spec: the
`ToolRequest` enum itself is declared outside this slice; the spec calls every
remaining shape "an opaque symbolic request", collapsed here into `other`. -/
inductive ToolRequest where
  | version (v : String)
  | prefixed (p : String)
  | ref (r : String)
  | other
deriving DecidableEq, Repr

/-- The slice of `ToolVersion` the plugin reads: the originating request, the
resolved version string, and the per-(tool, version) install and download
directories. -/
structure ToolVersion where
  request : ToolRequest
  version : String
  install_path : String
  download_path : String
deriving DecidableEq, Repr

/-- Path join, `PathBuf::join` with a `/` separator. -/
def pathJoin (a b : String) : String := a ++ "/" ++ b

/-- Side effects the pipeline can perform, in trace order. -/
inductive Event where
  | http_json (url : String)
  | http_download (url dest : String)
  | http_get_text (url : String)
  | minisign (key : String)
  | remove_all (path : String)
  | untar (tarball dest : String) (strip : Nat)
  | create_dir (path : String)
  | symlink (target link : String)
  | exec (bin arg : String)
deriving DecidableEq, Repr

/-- Network side effects (HTTP requests of any kind). -/
def Event.isNetwork : Event → Bool
  | .http_json _ => true
  | .http_download _ _ => true
  | .http_get_text _ => true
  | _ => false

/-- Side effects that write under the tool's install directory: every
`remove_all`, `untar`, `create_dir` and `symlink` the plugin issues targets a
path under `tv.install_path` (carried in the event's arguments). -/
def Event.writesInstallDir : Event → Bool
  | .remove_all _ => true
  | .untar _ _ _ => true
  | .create_dir _ => true
  | .symlink _ _ => true
  | _ => false

/-- Outcomes of the pipeline required by the external collaborators: one field
per call site, fixing what each external call returns in a given execution.
`get_tool_zig` is `ctx.toolset.get_tool("zig")`, `zig_current_version` its
`current_version()`; the rest model `HTTP`, `HTTP_FETCH`, `file`, `minisign`
and `CmdLineRunner`. -/
structure World where
  platform : HostPlatform
  get_tool_zig : Except String Unit
  zig_current_version : Except String (Option String)
  selector_json : String → Except String Json
  download_file : String → String → Except String Unit
  file_read : String → Except String (List Nat)
  get_text : String → Except String String
  minisign_verify : String → List Nat → String → Except String Unit
  remove_all : String → Except String Unit
  untar : String → String → Nat → Except String Unit
  create_dir_all : String → Except String Unit
  make_symlink : String → String → Except String Unit
  exec_output : String → String → Except String String

/-- The embedded minisign public key of the ZLS publisher. -/
def MINISIGN_KEY : String := "RWR+9B91GBZ0zOjh6Lr17+zKf5BoSuFvrx2xSeDE57uIYvnKBGmMjOex"

/-- The selector endpoint URL built in `fetch_url_from_zigtools`. -/
def select_version_url (zls_version : String) : String :=
  "https://releases.zigtools.org/v1/zls/select-version?zig_version="
    ++ zls_version ++ "&compatibility=only-runtime"

/-- Pure analysis of the selector response performed by
`fetch_url_from_zigtools` after its single JSON fetch: an error envelope (a
`"code"` field) is surfaced verbatim as a fatal error; otherwise the
`"<os>-<arch>"` platform key is looked up and its `"tarball"` string returned,
absence of either being the unsupported-platform error. -/
def fetch_result (w : World) (zls_version : String) : Except String String :=
  match w.selector_json (select_version_url zls_version) with
  | .error e => .error e
  | .ok version_json =>
    match version_json.get "code" with
    | some code =>
        .error ("ZLS API error (code " ++ code.render ++ "): "
          ++ (((version_json.get "message").bind Json.as_str).getD "Unknown error"))
    | none =>
      match (version_json.get (os_key w.platform)).bind
          (fun platform => (platform.get "tarball").bind Json.as_str) with
      | some url => .ok url
      | none =>
          .error ("No compatible ZLS build found for " ++ zls_version
            ++ " on " ++ os_key w.platform)

/-- Model of `ZlsPlugin::fetch_url_from_zigtools`: one HTTP JSON fetch of the
selector endpoint, then the pure analysis `fetch_result`. -/
def fetch_url_from_zigtools (w : World) (zls_version : String) :
    Except String String × List Event :=
  (fetch_result w zls_version, [Event.http_json (select_version_url zls_version)])

/-- Resolution of the version to query: the pseudo-version `"ref:zig"` asks the
toolset for the installed Zig version and fails with "Zig is not installed"
when there is none; every other version string passes through. -/
def resolve_zls_version (w : World) (v : String) : Except String String :=
  if v = "ref:zig" then
    match w.get_tool_zig with
    | .error e => .error e
    | .ok _ =>
      match w.zig_current_version with
      | .error e => .error e
      | .ok none => .error "Zig is not installed"
      | .ok (some zv) => .ok zv
  else .ok v

/-- Rust `str::split('/')` on the character list of a string. -/
def splitOnChar (sep : Char) : List Char → List (List Char)
  | [] => [[]]
  | c :: cs =>
    match splitOnChar sep cs with
    | [] => [[]]
    | g :: gs => if c = sep then [] :: g :: gs else (c :: g) :: gs

/-- The `url.split('/').last().unwrap()` filename derivation. -/
def url_filename (url : String) : String :=
  String.mk ((splitOnChar '/' url.data).getLastD [])

/-- Model of `ZlsPlugin::download`: resolve the version to query, ask the
selector API for the tarball URL, download the tarball into the download
directory, read it back, fetch the detached `.minisig` signature and verify it
against the embedded key.  Returns the tarball path only after successful
verification. -/
def download (w : World) (tv : ToolVersion) : Except String String × List Event :=
  match resolve_zls_version w tv.version with
  | .error e => (.error e, [])
  | .ok zls_version =>
    match fetch_url_from_zigtools w zls_version with
    | (.error e, t) => (.error e, t)
    | (.ok url, t) =>
      let filename := url_filename url
      let tarball_path := pathJoin tv.download_path filename
      let t1 := t ++ [Event.http_download url tarball_path]
      match w.download_file url tarball_path with
      | .error e => (.error e, t1)
      | .ok _ =>
        match w.file_read tarball_path with
        | .error e => (.error e, t1)
        | .ok tarball_data =>
          let t2 := t1 ++ [Event.http_get_text (url ++ ".minisig")]
          match w.get_text (url ++ ".minisig") with
          | .error e => (.error e, t2)
          | .ok sig =>
            let t3 := t2 ++ [Event.minisign MINISIGN_KEY]
            match w.minisign_verify MINISIGN_KEY tarball_data sig with
            | .error e => (.error e, t3)
            | .ok _ => (.ok tarball_path, t3)

/-- Model of `ZlsPlugin::install`: remove any pre-existing contents of the
install directory, extract the archive into it stripping one leading path
component, then on Unix create `bin/` and the `bin/zls → ../zls` symlink. -/
def install (w : World) (tv : ToolVersion) (tarball_path : String) :
    Except String Unit × List Event :=
  let t1 := [Event.remove_all tv.install_path]
  match w.remove_all tv.install_path with
  | .error e => (.error e, t1)
  | .ok _ =>
    let t2 := t1 ++ [Event.untar tarball_path tv.install_path 1]
    match w.untar tarball_path tv.install_path 1 with
    | .error e => (.error e, t2)
    | .ok _ =>
      if w.platform.is_unix then
        let binDir := pathJoin tv.install_path "bin"
        let t3 := t2 ++ [Event.create_dir binDir]
        match w.create_dir_all binDir with
        | .error e => (.error e, t3)
        | .ok _ =>
          let link := pathJoin tv.install_path "bin/zls"
          let t4 := t3 ++ [Event.symlink "../zls" link]
          match w.make_symlink "../zls" link with
          | .error e => (.error e, t4)
          | .ok _ => (.ok (), t4)
      else (.ok (), t2)

/-- Model of `ZlsPlugin::bin_path`: `<install>/<bin>.exe` on Windows,
`<install>/bin/<bin>` elsewhere. -/
def bin_path (w : World) (bin_name : String) (tv : ToolVersion) : String :=
  if w.platform.is_windows then pathJoin tv.install_path (bin_name ++ ".exe")
  else pathJoin (pathJoin tv.install_path "bin") bin_name

/-- Rust `str::lines().next()` on a character list: `none` on the empty string,
otherwise the chunk before the first `'\n'`, with one trailing `'\r'` removed
when the chunk was terminated by a `'\n'` (a lone `'\r'` is not a line
terminator in Rust). -/
def rust_first_line (cs : List Char) : Option (List Char) :=
  if cs = [] then none
  else
    let chunk := cs.takeWhile (fun c => c ≠ '\n')
    if chunk.length < cs.length then
      some (if chunk.getLast? = some '\r' then chunk.dropLast else chunk)
    else some chunk

/-- Rust `str::trim`: drop whitespace from both ends. -/
def trimChars (cs : List Char) : List Char :=
  ((cs.dropWhile Char.isWhitespace).reverse.dropWhile Char.isWhitespace).reverse

/-- The stdout post-processing of `bin_version`:
`.lines().next().unwrap_or("").trim().to_string()`. -/
def bin_version_of_stdout (stdout : String) : String :=
  String.mk (trimChars ((rust_first_line stdout.data).getD []))

/-- Model of `ZlsPlugin::bin_version`: run the installed binary with the single
argument `"version"` and post-process its captured stdout; a failure of the
execution itself is the only error case. -/
def bin_version (w : World) (tv : ToolVersion) (bin_name : String) :
    Except String String × List Event :=
  let path := bin_path w bin_name tv
  match w.exec_output path "version" with
  | .error e => (.error e, [Event.exec path "version"])
  | .ok out => (.ok (bin_version_of_stdout out), [Event.exec path "version"])

/-- Model of `ZlsPlugin::verify`: report the self-declared version of the
installed `zls` binary, failing iff `bin_version` fails. -/
def verify (w : World) (tv : ToolVersion) : Except String Unit × List Event :=
  match bin_version w tv "zls" with
  | (.error e, t) => (.error e, t)
  | (.ok _, t) => (.ok (), t)

/-- The `#[requires(...)]` contract on `install_version_`: the request must be
a `Version`, `Prefix` or `Ref` request. -/
def requires_install_version (tv : ToolVersion) : Bool :=
  match tv.request with
  | .version _ => true
  | .prefixed _ => true
  | .ref _ => true
  | .other => false

/-- Outcome of an `install_version_` call: success, a propagated error, or a
rejection by the `#[requires]` contract before the body ran. -/
inductive InstallOutcome where
  | ok
  | err (msg : String)
  | contract_violation (msg : String)
deriving DecidableEq, Repr

/-- Model of `ZlsPlugin::install_version_`: the contract check, then
`download`, `install` and `verify` in sequence, each aborting the pipeline on
error. -/
def install_version_ (w : World) (tv : ToolVersion) : InstallOutcome × List Event :=
  if requires_install_version tv then
    match download w tv with
    | (.error e, t) => (.err e, t)
    | (.ok tarball_path, t1) =>
      match install w tv tarball_path with
      | (.error e, t2) => (.err e, t1 ++ t2)
      | (.ok _, t2) =>
        match verify w tv with
        | (.error e, t3) => (.err e, t1 ++ t2 ++ t3)
        | (.ok _, t3) => (.ok, t1 ++ t2 ++ t3)
  else (.contract_violation "unsupported tool version request type", [])

/-! ### Helper lemmas -/

theorem mem_uniqueFirstAux {a : String} :
    ∀ (l seen : List String), a ∈ uniqueFirstAux seen l ↔ a ∈ l ∧ a ∉ seen := by
  intro l
  induction l with
  | nil => intro seen; simp [uniqueFirstAux]
  | cons x xs ih =>
    intro seen
    by_cases hx : x ∈ seen
    · simp only [uniqueFirstAux, if_pos hx, ih, List.mem_cons]
      constructor
      · rintro ⟨h1, h2⟩; exact ⟨Or.inr h1, h2⟩
      · rintro ⟨h1 | h1, h2⟩
        · exact absurd (h1 ▸ hx) h2
        · exact ⟨h1, h2⟩
    · simp only [uniqueFirstAux, if_neg hx, List.mem_cons, ih]
      constructor
      · rintro (rfl | ⟨h1, h2⟩)
        · exact ⟨Or.inl rfl, hx⟩
        · exact ⟨Or.inr h1, fun hs => h2 (Or.inr hs)⟩
      · rintro ⟨h1 | h1, h2⟩
        · exact Or.inl h1
        · by_cases hax : a = x
          · exact Or.inl hax
          · exact Or.inr ⟨h1, fun hc => hc.elim hax h2⟩

theorem nodup_uniqueFirstAux :
    ∀ (l seen : List String), (uniqueFirstAux seen l).Nodup := by
  intro l
  induction l with
  | nil => intro seen; simp [uniqueFirstAux]
  | cons x xs ih =>
    intro seen
    by_cases hx : x ∈ seen
    · simpa [uniqueFirstAux, if_pos hx] using ih seen
    · simp only [uniqueFirstAux, if_neg hx, List.nodup_cons]
      refine ⟨fun hmem => ?_, ih _⟩
      have := (mem_uniqueFirstAux xs (x :: seen)).mp hmem
      exact this.2 (List.mem_cons_self x seen)

theorem mem_uniqueFirst {a : String} {l : List String} :
    a ∈ uniqueFirst l ↔ a ∈ l := by
  simp [uniqueFirst, mem_uniqueFirstAux]

theorem nodup_uniqueFirst (l : List String) : (uniqueFirst l).Nodup :=
  nodup_uniqueFirstAux l []

theorem download_no_write_events (w : World) (tv : ToolVersion) :
    ((download w tv).2).all (fun e => !e.writesInstallDir) = true := by
  cases hres : resolve_zls_version w tv.version with
  | error e => simp [download, hres]
  | ok zv =>
    cases hf : fetch_result w zv with
    | error e => simp [download, fetch_url_from_zigtools, hres, hf, Event.writesInstallDir]
    | ok url =>
      cases hd : w.download_file url (pathJoin tv.download_path (url_filename url)) with
      | error e =>
          simp [download, fetch_url_from_zigtools, hres, hf, hd, Event.writesInstallDir]
      | ok u =>
        cases hr : w.file_read (pathJoin tv.download_path (url_filename url)) with
        | error e =>
            simp [download, fetch_url_from_zigtools, hres, hf, hd, hr, Event.writesInstallDir]
        | ok data =>
          cases hs : w.get_text (url ++ ".minisig") with
          | error e =>
              simp [download, fetch_url_from_zigtools, hres, hf, hd, hr, hs,
                Event.writesInstallDir]
          | ok sig =>
            cases hm : w.minisign_verify MINISIGN_KEY data sig with
            | error e =>
                simp [download, fetch_url_from_zigtools, hres, hf, hd, hr, hs, hm,
                  Event.writesInstallDir]
            | ok u2 =>
                simp [download, fetch_url_from_zigtools, hres, hf, hd, hr, hs, hm,
                  Event.writesInstallDir]

theorem download_ok_minisign {w : World} {tv : ToolVersion} {p : String}
    (h : (download w tv).1 = .ok p) :
    ∃ data sig, w.minisign_verify MINISIGN_KEY data sig = .ok () := by
  cases hres : resolve_zls_version w tv.version with
  | error e => simp [download, hres] at h
  | ok zv =>
    cases hf : fetch_result w zv with
    | error e => simp [download, fetch_url_from_zigtools, hres, hf] at h
    | ok url =>
      cases hd : w.download_file url (pathJoin tv.download_path (url_filename url)) with
      | error e => simp [download, fetch_url_from_zigtools, hres, hf, hd] at h
      | ok u =>
        cases hr : w.file_read (pathJoin tv.download_path (url_filename url)) with
        | error e => simp [download, fetch_url_from_zigtools, hres, hf, hd, hr] at h
        | ok data =>
          cases hs : w.get_text (url ++ ".minisig") with
          | error e => simp [download, fetch_url_from_zigtools, hres, hf, hd, hr, hs] at h
          | ok sig =>
            cases hm : w.minisign_verify MINISIGN_KEY data sig with
            | error e => simp [download, fetch_url_from_zigtools, hres, hf, hd, hr, hs, hm] at h
            | ok u2 => exact ⟨data, sig, by cases u2; exact hm⟩

/-! ### Concrete executions used by the witnesses -/

/-- A Linux x86_64 host. -/
def okPlatform : HostPlatform :=
  { target_os := "linux", crate_os := "linux", settings_arch := "x86_64",
    is_unix := true, is_windows := false }

/-- A selector response holding a tarball for the host platform. -/
def okJson : Json :=
  .obj [("linux-x86_64",
    .obj [("tarball", .str "https://example.com/zls-linux-x86_64-0.13.0.tar.xz")])]

/-- A world in which every external call succeeds. -/
def okWorld : World :=
  { platform := okPlatform,
    get_tool_zig := .ok (),
    zig_current_version := .ok (some "0.13.0"),
    selector_json := fun _ => .ok okJson,
    download_file := fun _ _ => .ok (),
    file_read := fun _ => .ok [1, 2, 3],
    get_text := fun _ => .ok "sig",
    minisign_verify := fun _ _ _ => .ok (),
    remove_all := fun _ => .ok (),
    untar := fun _ _ _ => .ok (),
    create_dir_all := fun _ => .ok (),
    make_symlink := fun _ _ => .ok (),
    exec_output := fun _ _ => .ok "0.13.0\nextra" }

/-- An exact-version request for ZLS 0.13.0. -/
def okTv : ToolVersion :=
  { request := .version "0.13.0", version := "0.13.0",
    install_path := "/installs/zls/0.13.0", download_path := "/downloads/zls/0.13.0" }

/-! ### Claims -/

/-- C9: the platform mapping is a pure, total, deterministic function of the
host OS and architecture identifiers with no error case; `"arm"` maps to
`"armv7a"`, `"x86_64"`, `"aarch64"` and `"riscv64"` map to themselves, and any
other architecture value passes through unchanged. -/
theorem C9_platform_mapper_pure (a t c : String)
    (h : a ∉ (["x86_64", "aarch64", "arm", "riscv64"] : List String)) :
    arch_map "arm" = "armv7a" ∧
    arch_map "x86_64" = "x86_64" ∧
    arch_map "aarch64" = "aarch64" ∧
    arch_map "riscv64" = "riscv64" ∧
    arch_map a = a ∧
    (∀ a2 t2 c2, a = a2 → t = t2 → c = c2 →
      arch_map a = arch_map a2 ∧ os_map t c = os_map t2 c2) := by
  simp only [List.mem_cons, List.not_mem_nil, or_false, not_or] at h
  obtain ⟨h1, h2, h3, h4⟩ := h
  refine ⟨by decide, by decide, by decide, by decide, ?_, ?_⟩
  · simp [arch_map, h1, h2, h3, h4]
  · rintro a2 t2 c2 rfl rfl rfl; exact ⟨rfl, rfl⟩

/-- Witness for C9 at the pass-through architecture `"mips64"`. -/
theorem C9_witness : arch_map "mips64" = "mips64" :=
  (C9_platform_mapper_pure "mips64" "linux" "linux" (by decide)).2.2.2.2.1

/-- C6: the `#[requires]` contract on `install_version_` only admits `Version`,
`Prefix` and `Ref` requests; any other request shape is rejected before the
body runs, with an empty effect trace — in particular no network activity. -/
theorem C6_contract_rejects_other_shapes (w : World) (tv : ToolVersion)
    (h : tv.request = ToolRequest.other) :
    install_version_ w tv =
      (InstallOutcome.contract_violation "unsupported tool version request type", []) := by
  simp [install_version_, requires_install_version, h]

/-- Witness for C6: a concrete non-`Version`/`Prefix`/`Ref` request is rejected
with no effects. -/
theorem C6_witness :
    install_version_ okWorld { okTv with request := ToolRequest.other } =
      (InstallOutcome.contract_violation "unsupported tool version request type", []) :=
  C6_contract_rejects_other_shapes okWorld { okTv with request := ToolRequest.other } rfl

/-- C2: installing the pseudo-version `"ref:zig"` when the toolset reports no
installed Zig version fails with the dependency-missing error
"Zig is not installed" with an empty effect trace — before any HTTP request,
so neither the selector endpoint nor any download URL is contacted. -/
theorem C2_missing_zig_fails_before_network (w : World) (tv : ToolVersion)
    (hv : tv.version = "ref:zig")
    (hget : w.get_tool_zig = .ok ())
    (hcur : w.zig_current_version = .ok none) :
    download w tv = (.error "Zig is not installed", []) ∧
    ((download w tv).2).all (fun e => !e.isNetwork) = true := by
  have hd : download w tv = (.error "Zig is not installed", []) := by
    simp [download, resolve_zls_version, hv, hget, hcur]
  exact ⟨hd, by rw [hd]; simp⟩

/-- Witness for C2: a concrete world with no installed Zig. -/
theorem C2_witness :
    download { okWorld with zig_current_version := .ok none }
        { okTv with version := "ref:zig", request := .ref "zig" } =
      (.error "Zig is not installed", []) :=
  (C2_missing_zig_fails_before_network
    { okWorld with zig_current_version := .ok none }
    { okTv with version := "ref:zig", request := .ref "zig" } rfl rfl rfl).1

/-- C7: a selector response containing a `"code"` field is surfaced as a fatal
error embedding the envelope's code and message verbatim, after exactly one
HTTP request (no retry) and with no fallback to the platform lookup (the
response `j` is arbitrary, so the error is returned even when a valid platform
entry is present). -/
theorem C7_error_envelope_is_fatal (w : World) (zv : String) (j c : Json) (m : String)
    (hj : w.selector_json (select_version_url zv) = .ok j)
    (hcode : j.get "code" = some c)
    (hmsg : (j.get "message").bind Json.as_str = some m) :
    fetch_url_from_zigtools w zv =
      (.error ("ZLS API error (code " ++ c.render ++ "): " ++ m),
       [Event.http_json (select_version_url zv)]) := by
  simp [fetch_url_from_zigtools, fetch_result, hj, hcode, hmsg]

/-- A selector error envelope that nevertheless contains a valid platform
entry, to exhibit that the platform lookup is never used as a fallback. -/
def envJson : Json :=
  .obj [("code", .num 2), ("message", .str "not found"),
    ("linux-x86_64", .obj [("tarball", .str "https://example.com/x.tar.xz")])]

/-- Witness for C7: the envelope's code and message appear verbatim even though
a tarball for the host platform is present in the same response. -/
theorem C7_witness :
    fetch_url_from_zigtools { okWorld with selector_json := fun _ => .ok envJson } "0.1.0" =
      (.error "ZLS API error (code 2): not found",
       [Event.http_json (select_version_url "0.1.0")]) := by
  rw [C7_error_envelope_is_fatal { okWorld with selector_json := fun _ => .ok envJson }
    "0.1.0" envJson (.num 2) "not found" rfl rfl rfl]
  have hr : (Json.num 2).render = "2" := rfl
  rw [hr]
  rfl

/-- C4: when the selector response carries no error code but the host's
platform key has no string `"tarball"` entry, the pipeline fails with the
unsupported-platform error naming the version and the platform key, and the
effect trace holds the single JSON fetch — nothing is ever written under the
install directory, the remove-and-extract step is never reached. -/
theorem C4_unsupported_platform_untouched (w : World) (tv : ToolVersion) (zv : String) (j : Json)
    (hreq : requires_install_version tv = true)
    (hres : resolve_zls_version w tv.version = .ok zv)
    (hj : w.selector_json (select_version_url zv) = .ok j)
    (hcode : j.get "code" = none)
    (hplat : (j.get (os_key w.platform)).bind
        (fun platform => (platform.get "tarball").bind Json.as_str) = none) :
    install_version_ w tv =
      (.err ("No compatible ZLS build found for " ++ zv ++ " on " ++ os_key w.platform),
       [Event.http_json (select_version_url zv)]) ∧
    ((install_version_ w tv).2).all (fun e => !e.writesInstallDir) = true := by
  have hd : download w tv =
      (.error ("No compatible ZLS build found for " ++ zv ++ " on " ++ os_key w.platform),
       [Event.http_json (select_version_url zv)]) := by
    simp [download, fetch_url_from_zigtools, fetch_result, hres, hj, hcode, hplat]
  have hi : install_version_ w tv =
      (.err ("No compatible ZLS build found for " ++ zv ++ " on " ++ os_key w.platform),
       [Event.http_json (select_version_url zv)]) := by
    simp [install_version_, hreq, hd]
  exact ⟨hi, by rw [hi]; simp [Event.writesInstallDir]⟩

/-- A selector response that only publishes a build for another platform. -/
def noPlatJson : Json :=
  .obj [("windows-aarch64", .obj [("tarball", .str "https://example.com/y.tar.xz")])]

/-- Witness for C4: a Linux x86_64 host against a response lacking its key. -/
theorem C4_witness :
    install_version_ { okWorld with selector_json := fun _ => .ok noPlatJson } okTv =
      (.err ("No compatible ZLS build found for " ++ "0.13.0" ++ " on "
          ++ os_key okPlatform),
       [Event.http_json (select_version_url "0.13.0")]) :=
  (C4_unsupported_platform_untouched { okWorld with selector_json := fun _ => .ok noPlatJson }
    okTv "0.13.0" noPlatJson rfl rfl rfl rfl rfl).1

/-- C1: if minisign verification of the downloaded tarball against the
embedded key fails, `install_version_` never succeeds and its effect trace
contains no write under the install directory — in particular the `install`
step (whose every call emits a `remove_all` event first) is never invoked and
no extraction runs. -/
theorem C1_minisign_failure_blocks_install (w : World) (tv : ToolVersion)
    (hm : ∀ data sig (u : Unit), w.minisign_verify MINISIGN_KEY data sig ≠ .ok u) :
    (install_version_ w tv).1 ≠ InstallOutcome.ok ∧
    ((install_version_ w tv).2).all (fun e => !e.writesInstallDir) = true := by
  by_cases hreq : requires_install_version tv = true
  · cases hd : download w tv with
    | mk r t =>
      cases r with
      | error e =>
        have hi : install_version_ w tv = (.err e, t) := by
          simp [install_version_, hreq, hd]
        refine ⟨by rw [hi]; simp, ?_⟩
        have hall := download_no_write_events w tv
        rw [hd] at hall
        rw [hi]
        simpa using hall
      | ok p =>
        exfalso
        have h1 : (download w tv).1 = .ok p := by rw [hd]
        obtain ⟨data, sig, hver⟩ := download_ok_minisign h1
        exact hm data sig () hver
  · have hi : install_version_ w tv =
        (.contract_violation "unsupported tool version request type", []) := by
      simp [install_version_, hreq]
    exact ⟨by rw [hi]; simp, by rw [hi]; simp⟩

/-- Witness for C1: a world whose signature check always fails; the install
never succeeds and nothing is written under the install directory. -/
theorem C1_witness :
    (install_version_
        { okWorld with minisign_verify := fun _ _ _ => .error "signature verification failed" }
        okTv).1 ≠ InstallOutcome.ok ∧
    ((install_version_
        { okWorld with minisign_verify := fun _ _ _ => .error "signature verification failed" }
        okTv).2).all (fun e => !e.writesInstallDir) = true :=
  C1_minisign_failure_blocks_install
    { okWorld with minisign_verify := fun _ _ _ => .error "signature verification failed" }
    okTv (fun _ _ _ h => Except.noConfusion h)

/-- C5: for a verified artifact the install step performs exactly: remove the
install directory contents, extract the archive with one leading path
component stripped, then on Unix create `bin/` and the relative symlink
`bin/zls → ../zls`; off Unix no directory or symlink is created, and on
Windows the binary is addressed as `<install_path>/zls.exe`. -/
theorem C5_install_sequence (w : World) (tv : ToolVersion) (tarball_path : String)
    (h1 : w.remove_all tv.install_path = .ok ())
    (h2 : w.untar tarball_path tv.install_path 1 = .ok ())
    (h3 : w.create_dir_all (pathJoin tv.install_path "bin") = .ok ())
    (h4 : w.make_symlink "../zls" (pathJoin tv.install_path "bin/zls") = .ok ()) :
    (w.platform.is_unix = true →
      install w tv tarball_path =
        (.ok (), [Event.remove_all tv.install_path,
                  Event.untar tarball_path tv.install_path 1,
                  Event.create_dir (pathJoin tv.install_path "bin"),
                  Event.symlink "../zls" (pathJoin tv.install_path "bin/zls")])) ∧
    (w.platform.is_unix = false →
      install w tv tarball_path =
        (.ok (), [Event.remove_all tv.install_path,
                  Event.untar tarball_path tv.install_path 1])) ∧
    (w.platform.is_windows = true →
      bin_path w "zls" tv = pathJoin tv.install_path "zls.exe") := by
  refine ⟨fun hu => ?_, fun hu => ?_, fun hw => ?_⟩
  · simp [install, h1, h2, h3, h4, hu]
  · simp [install, h1, h2, hu]
  · simp [bin_path, hw]

/-- A Windows host world with every external call succeeding. -/
def winWorld : World :=
  { okWorld with platform :=
    { target_os := "windows", crate_os := "windows", settings_arch := "x86_64",
      is_unix := false, is_windows := true } }

/-- Witness for C5: the Unix sequence on a concrete world, the trimmed Windows
sequence, and the Windows `zls.exe` addressing. -/
theorem C5_witness :
    install okWorld okTv "/downloads/zls/0.13.0/zls.tar.xz" =
      (.ok (), [Event.remove_all okTv.install_path,
                Event.untar "/downloads/zls/0.13.0/zls.tar.xz" okTv.install_path 1,
                Event.create_dir (pathJoin okTv.install_path "bin"),
                Event.symlink "../zls" (pathJoin okTv.install_path "bin/zls")]) ∧
    install winWorld okTv "/downloads/zls/0.13.0/zls.tar.xz" =
      (.ok (), [Event.remove_all okTv.install_path,
                Event.untar "/downloads/zls/0.13.0/zls.tar.xz" okTv.install_path 1]) ∧
    bin_path winWorld "zls" okTv = pathJoin okTv.install_path "zls.exe" :=
  ⟨(C5_install_sequence okWorld okTv "/downloads/zls/0.13.0/zls.tar.xz"
      rfl rfl rfl rfl).1 rfl,
   (C5_install_sequence winWorld okTv "/downloads/zls/0.13.0/zls.tar.xz"
      rfl rfl rfl rfl).2.1 rfl,
   (C5_install_sequence winWorld okTv "/downloads/zls/0.13.0/zls.tar.xz"
      rfl rfl rfl rfl).2.2 rfl⟩

/-- C8: the post-install verifier executes the installed binary with the
single argument `"version"`; on success it returns the first line of the
captured stdout with surrounding whitespace trimmed; if the binary cannot be
executed, verification fails and the whole `install_version_` call fails with
that error. -/
theorem C8_verifier_runs_version (w : World) (tv : ToolVersion) :
    (bin_version w tv "zls").2 = [Event.exec (bin_path w "zls" tv) "version"] ∧
    (∀ out, w.exec_output (bin_path w "zls" tv) "version" = .ok out →
      (bin_version w tv "zls").1 = .ok (bin_version_of_stdout out)) ∧
    (∀ e tarball t1 t2,
      w.exec_output (bin_path w "zls" tv) "version" = .error e →
      requires_install_version tv = true →
      download w tv = (.ok tarball, t1) →
      install w tv tarball = (.ok (), t2) →
      (install_version_ w tv).1 = .err e) := by
  refine ⟨?_, fun out hout => ?_, fun e tarball t1 t2 he hreq hd hi => ?_⟩
  · cases hx : w.exec_output (bin_path w "zls" tv) "version" <;> simp [bin_version, hx]
  · simp [bin_version, hout]
  · have hv : verify w tv = (.error e, [Event.exec (bin_path w "zls" tv) "version"]) := by
      simp [verify, bin_version, he]
    simp [install_version_, hreq, hd, hi, hv]

/-- Witness for C8: in a world where everything succeeds except executing the
installed binary, the whole install fails with the execution error. -/
theorem C8_witness :
    (install_version_ { okWorld with exec_output := fun _ _ => .error "exec failed" }
        okTv).1 = .err "exec failed" :=
  (C8_verifier_runs_version { okWorld with exec_output := fun _ _ => .error "exec failed" }
    okTv).2.2 "exec failed" _ _ _ rfl rfl rfl rfl

/-- C10: a runnable binary that prints nothing still verifies: when the
execution succeeds with empty stdout, `bin_version` returns `Ok` with the
empty string; and the only error case of `bin_version` is failure of the
command execution itself. -/
theorem C10_empty_stdout_still_ok (w : World) (tv : ToolVersion) :
    (w.exec_output (bin_path w "zls" tv) "version" = .ok "" →
      (bin_version w tv "zls").1 = .ok "") ∧
    (∀ e, (bin_version w tv "zls").1 = .error e →
      w.exec_output (bin_path w "zls" tv) "version" = .error e) := by
  constructor
  · intro h
    simp only [bin_version, h]
    rfl
  · intro e h
    cases hx : w.exec_output (bin_path w "zls" tv) "version" with
    | error e2 =>
        simp only [bin_version, hx, Except.error.injEq] at h
        rw [h]
    | ok out => simp [bin_version, hx] at h

/-- Witness for C10: empty stdout yields a verified install reporting the
empty string. -/
theorem C10_witness :
    (bin_version { okWorld with exec_output := fun _ _ => .ok "" } okTv "zls").1 =
      .ok "" :=
  (C10_empty_stdout_still_ok { okWorld with exec_output := fun _ _ => .ok "" } okTv).1 rfl

/-- C3 counterexample: when the upstream tags already contain the literal
`"ref:zig"`, the returned list holds the pseudo-version token twice — its
first copy was deduplicated and sorted among the real versions and a second
copy is still appended — so the list does not end with exactly one
pseudo-version token that was kept out of the semantic comparison. -/
theorem C3_counterexample :
    list_remote_versions (fun _ : String => (0 : Nat)) ["ref:zig"] =
      ["ref:zig", "ref:zig"] ∧
    ¬ ((list_remote_versions (fun _ : String => (0 : Nat)) ["ref:zig"]).count "ref:zig" = 1) := by
  constructor <;> decide

/-- C3 (amended): provided the upstream tags do not already contain the
pseudo-version token, `list_remote_versions` returns exactly the deduplicated
tags, strictly ordered by semantic rank with ties broken by the original tag
string, followed by exactly one appended `"ref:zig"` that never entered the
semantic comparison.  `semkey` is any linearly ordered abstraction of the
semantic rank `Versioning::new`. -/
theorem C3_catalog_sorted_deduped {K : Type} [LinearOrder K] (semkey : String → K)
    (tags : List String) (h : "ref:zig" ∉ tags) :
    ∃ real, list_remote_versions semkey tags = real ++ ["ref:zig"] ∧
      "ref:zig" ∉ real ∧
      real.Pairwise (fun a b => semkey a < semkey b ∨ (semkey a = semkey b ∧ a < b)) ∧
      (∀ s, s ∈ real ↔ s ∈ tags) := by
  refine ⟨List.insertionSort (tagKeyR semkey) (uniqueFirst tags), rfl, ?_, ?_, ?_⟩
  · intro hmem
    exact h (mem_uniqueFirst.mp ((List.perm_insertionSort _ _).mem_iff.mp hmem))
  · have hsorted : List.Pairwise (tagKeyR semkey)
        (List.insertionSort (tagKeyR semkey) (uniqueFirst tags)) :=
      List.sorted_insertionSort (tagKeyR semkey) (uniqueFirst tags)
    have hnodup : (List.insertionSort (tagKeyR semkey) (uniqueFirst tags)).Nodup :=
      ((List.perm_insertionSort _ _).nodup_iff).mpr (nodup_uniqueFirst tags)
    refine (hsorted.and hnodup).imp ?_
    rintro a b ⟨h1 | ⟨e, le⟩, hne⟩
    · exact Or.inl h1
    · exact Or.inr ⟨e, lt_of_le_of_ne le hne⟩
  · intro s
    rw [(List.perm_insertionSort _ _).mem_iff, mem_uniqueFirst]

/-- Witness for the amended C3 on a concrete tag list with a duplicate, using
the tag length as a concrete semantic rank. -/
theorem C3_witness :
    ∃ real, list_remote_versions (fun s : String => s.length) ["bb", "a", "bb", "ccc"] =
        real ++ ["ref:zig"] ∧
      "ref:zig" ∉ real ∧
      real.Pairwise (fun a b =>
        (fun s : String => s.length) a < (fun s : String => s.length) b ∨
        ((fun s : String => s.length) a = (fun s : String => s.length) b ∧ a < b)) ∧
      (∀ s, s ∈ real ↔ s ∈ (["bb", "a", "bb", "ccc"] : List String)) :=
  C3_catalog_sorted_deduped (fun s : String => s.length) ["bb", "a", "bb", "ccc"] (by decide)

end Zls
